import Mathlib

/-!
Verification of the channel-analytics engine
(`src/app/api/youtube-audit/route.ts`).

The TypeScript route is shallowly embedded below.  Modelling conventions:

* JS numbers are modelled as exact rationals (`ℚ`); the fetched integer
  counters (`parseInt` of the upstream `viewCount` / `likeCount` /
  `commentCount` strings) are natural numbers, and millisecond timestamps
  (`Date.getTime()`) are integers.  `Number.prototype.toFixed(k)` followed
  by the unary `+` of the source is modelled by exact decimal rounding
  (round half away from zero, the rounding ECMA-262 prescribes for
  `toFixed`).
* Divisions that can produce `NaN` / `Infinity` in JS are routed through
  `JsNum`, an explicit finite/NaN/±Infinity codomain, with JS comparison
  semantics (every comparison with NaN is false).
* `Array.prototype.sort` with a numeric comparator is a stable sort; it is
  modelled by `List.insertionSort` with the non-strict relation induced by
  the comparator, which is stable in exactly the same sense.
* Strings are processed over their character lists with ASCII models of
  `toLowerCase`, the `\\s` class, and the word-boundary regexes used by the
  route; upstream date strings are carried as already-parsed millisecond
  timestamps, and the ISO-8601 duration token as its parsed second count
  (the boundary conversions `new Date(...)`/`parseDuration` on well-formed
  upstream data).
-/

/-- avg (route.ts line 77): `null` on an empty list, else the arithmetic
mean `sum / length`. -/
def avg (nums : List ℚ) : Option ℚ :=
  if nums.length = 0 then none else some (nums.sum / nums.length)

/-- Round half away from zero to an integer: the integer rounding used by
`Number.prototype.toFixed`. -/
def roundHalfAway (q : ℚ) : ℤ :=
  if q < 0 then -((-q + 1/2).floor) else (q + 1/2).floor

/-- Model of `+x.toFixed(k)`: round to `k` decimal digits. -/
def toFixedQ (k : ℕ) (q : ℚ) : ℚ :=
  (roundHalfAway (q * 10 ^ k) : ℚ) / 10 ^ k

/-- A JS number that may be non-finite. -/
inductive JsNum where
  | num : ℚ → JsNum
  | nan : JsNum
  | posInf : JsNum
  | negInf : JsNum
deriving DecidableEq, Repr

/-- JS division of two finite numbers: finite unless the denominator is 0,
in which case `0/0 = NaN` and `x/0 = ±Infinity`. -/
def jsDivQ (a b : ℚ) : JsNum :=
  if b = 0 then
    if a = 0 then JsNum.nan else if 0 < a then JsNum.posInf else JsNum.negInf
  else JsNum.num (a / b)

/-- JS `x >= c` for a possibly non-finite `x` (false on NaN). -/
def JsNum.geQ : JsNum → ℚ → Bool
  | JsNum.num q, c => c ≤ q
  | JsNum.posInf, _ => true
  | _, _ => false

/-- JS `x < c` for a possibly non-finite `x` (false on NaN). -/
def JsNum.ltQ : JsNum → ℚ → Bool
  | JsNum.num q, c => q < c
  | JsNum.negInf, _ => true
  | _, _ => false

/-- Model of `+x.toFixed(k)` on a possibly non-finite number: NaN and ±Infinity pass
through (`(+"NaN") = NaN`, `(+"Infinity") = Infinity`). -/
def toFixedJs (k : ℕ) : JsNum → JsNum
  | JsNum.num q => JsNum.num (toFixedQ k q)
  | x => x

-- ── Character / string utilities ────────────────────────────────────────────

/-- ASCII model of `String.prototype.toLowerCase` on one character. -/
def charToLower (c : Char) : Char :=
  if 'A' ≤ c ∧ c ≤ 'Z' then Char.ofNat (c.toNat + 32) else c

/-- Lower-case a character list. -/
def toLowerL (s : List Char) : List Char := s.map charToLower

/-- The JS `\s` class (ASCII part plus NBSP), as used by `/\s+/`, `[^a-z0-9\s]`
and `trim()` on the video titles. -/
def isSpaceChar (c : Char) : Bool :=
  c == ' ' || c == '\t' || c == '\n' || c == '\r' ||
  c == '\x0b' || c == '\x0c' || c == '\xA0'

def isLowerAlpha (c : Char) : Bool := 'a' ≤ c && c ≤ 'z'

def isDigitCh (c : Char) : Bool := '0' ≤ c && c ≤ '9'

/-- The JS `\w` class: ASCII letters, digits and underscore (used by the
word-boundary `\b`). -/
def isWordChar (c : Char) : Bool :=
  isLowerAlpha c || ('A' ≤ c && c ≤ 'Z') || isDigitCh c || c == '_'

/-- Split a character list at every whitespace character.  Runs of
whitespace and boundary whitespace yield empty chunks, exactly the empty
strings a JS `split` can produce; every caller below discards them (the
keyword pipeline by its `length > 1` filter, the word counter explicitly),
so this models both `split(/\s+/)` compositions of the route. -/
def splitRuns (s : List Char) : List (List Char) :=
  s.foldr
    (fun c acc =>
      if isSpaceChar c then [] :: acc
      else
        match acc with
        | [] => [[c]]
        | w :: ws => (c :: w) :: ws)
    []

/-- The non-empty chunks of `splitRuns`: the tokens of `trim().split(/\s+/)`/
`split(/\s+/).filter(Boolean)`. -/
def wordChunks (s : List Char) : List (List Char) :=
  (splitRuns s).filter (fun w => !w.isEmpty)

/-- `String.prototype.trim` (over the `\s` model). -/
def trimL (s : List Char) : List Char :=
  ((s.dropWhile isSpaceChar).reverse.dropWhile isSpaceChar).reverse

/-- Does `s` start with `w`? -/
def startsWithL : List Char → List Char → Bool
  | _, [] => true
  | [], _ :: _ => false
  | c :: cs, d :: ds => c == d && startsWithL cs ds

/-- Does `w` occur as a contiguous substring of `s`?  (JS `includes`.) -/
def containsSubstrL : List Char → List Char → Bool
  | [], w => w.isEmpty
  | c :: cs, w => startsWithL (c :: cs) w || containsSubstrL cs w

/-- After an occurrence of a word, `\b` holds iff the string is over or the
next character is not a word character. -/
def boundaryAfter : List Char → Bool
  | [] => true
  | d :: _ => !isWordChar d

/-- Scan for an occurrence of the word `w` preceded by a `\b` boundary
(`prevIsWord` carries whether the previous character is a word character)
and followed by a `\b` boundary. -/
def hasWordAux (w : List Char) : Bool → List Char → Bool
  | _, [] => false
  | prevIsWord, c :: cs =>
    (!prevIsWord && startsWithL (c :: cs) w && boundaryAfter ((c :: cs).drop w.length)) ||
    hasWordAux w (isWordChar c) cs

/-- Model of `/\bw\b/i` on a title: match the word `w` (given lower-case) against the
lower-cased string, requiring word boundaries on both sides. -/
def hasWordToken (s : List Char) (w : List Char) : Bool :=
  hasWordAux w false (toLowerL s)

/-- The `vs.`-with-following-word-character branch of `/\bvs\.?\b/i`: after
the literal dot (a non-word character), `\b` only holds if a word character
follows. -/
def hasVsDotAux : Bool → List Char → Bool
  | _, [] => false
  | prevIsWord, c :: cs =>
    (!prevIsWord && startsWithL (c :: cs) ['v', 's', '.'] &&
      (match (c :: cs).drop 3 with
       | [] => false
       | d :: _ => isWordChar d)) ||
    hasVsDotAux (isWordChar c) cs

/-- Model of `/\bvs\.?\b|\bversus\b/i` (route.ts lines 36 and 112). -/
def hasVsPattern (s : List Char) : Bool :=
  hasWordToken s ['v', 's'] || hasVsDotAux false (toLowerL s) ||
  hasWordToken s ['v', 'e', 'r', 's', 'u', 's']

-- ── Constants (route.ts lines 5-39) ─────────────────────────────────────────

def STOPWORDS : List String :=
  ["the", "a", "an", "and", "or", "but", "to", "of", "in", "on", "for",
   "with", "vs", "we", "our", "you", "your", "this", "that", "is", "are",
   "was", "were"]

def EMOTIONAL_KEYWORDS : List String :=
  ["crazy", "insane", "unbelievable", "worst", "best", "epic", "shocking",
   "incredible", "amazing", "legendary", "brutal", "disaster", "genius",
   "overrated", "goat", "greatest", "terrible", "awful", "perfect", "ultimate",
   "historic", "dangerous", "impossible", "unforgettable", "embarrassing",
   "dominated", "underrated", "controversial", "wild", "absurd",
   "ridiculous", "stunning", "spectacular", "unreal"]

def COUNTRY_TERMS : List String :=
  ["usa", "united states", "america", "american", "canada", "canadian",
   "uk", "england", "english", "british", "australia", "australian",
   "france", "french", "germany", "german", "spain", "spanish",
   "italy", "italian", "brazil", "brazilian", "mexico", "mexican",
   "china", "chinese", "japan", "japanese", "russia", "russian",
   "india", "indian", "argentina", "argentinian"]

def DAY_NAMES : List String :=
  ["Sunday", "Monday", "Tuesday", "Wednesday", "Thursday", "Friday", "Saturday"]

-- ── Title predicates ────────────────────────────────────────────────────────

/-- JS `/\d/.test(t)` and `/\d+/.test(t)`: the title contains a digit. -/
def hasDigitT (t : String) : Bool := t.data.any isDigitCh

/-- JS `t.includes("?")`. -/
def hasQuestionT (t : String) : Bool := containsSubstrL t.data ['?']

/-- JS `/\bvs\.?\b|\bversus\b/i.test(t)`. -/
def hasComparisonT (t : String) : Bool := hasVsPattern t.data

/-- JS `COUNTRY_TERMS.some(c => t.toLowerCase().includes(c))`. -/
def countryMentionT (t : String) : Bool :=
  COUNTRY_TERMS.any (fun c => containsSubstrL (toLowerL t.data) c.data)

/-- Tokenisation of route.ts line 109: lower-case, replace every character
outside `[a-z0-9\s]` with a space, split on whitespace, keep non-empty
tokens (`filter(Boolean)`). -/
def titleSpaceWords (t : String) : List String :=
  (wordChunks
    ((toLowerL t.data).map
      (fun c => if isLowerAlpha c || isDigitCh c || isSpaceChar c then c else ' '))).map
    (fun w => String.mk w)

/-- Route.ts line 113: some tokenised word is an emotional keyword. -/
def hasEmotionalT (t : String) : Bool :=
  (titleSpaceWords t).any (fun w => EMOTIONAL_KEYWORDS.contains w)

/-- FORMAT_PATTERNS (route.ts lines 31-39). -/
def FORMAT_PATTERNS : List (String × (String → Bool)) :=
  [("Question (Has ?)", hasQuestionT),
   ("Is X", fun t => hasWordToken t.data ['i', 's']),
   ("Why", fun t => hasWordToken t.data ['w', 'h', 'y']),
   ("Best", fun t => hasWordToken t.data ['b', 'e', 's', 't']),
   ("vs / Versus", hasComparisonT),
   ("Numbers", hasDigitT),
   ("Country Mention", countryMentionT)]

-- ── Data model ──────────────────────────────────────────────────────────────

/-- A fetched upstream video record after the boundary conversions: counters
parsed by `parseInt`, the publish date parsed to epoch milliseconds, the
ISO-8601 duration token parsed to seconds. -/
structure RawVideo where
  videoId : String
  title : String
  publishedMs : ℤ
  viewCount : ℕ
  likeCount : ℕ
  commentCount : ℕ
  durationSeconds : ℕ
deriving DecidableEq, Repr

/-- A per-video metric record before the velocity pass (route.ts step 4). -/
structure BaseVideo where
  videoId : String
  title : String
  publishedMs : ℤ
  viewCount : ℕ
  likeCount : ℕ
  commentCount : ℕ
  durationSeconds : ℕ
  daysSincePublish : ℤ
  viewsPerDay : ℚ
  engagementRate : Option ℚ
deriving DecidableEq, Repr

/-- A fully enriched video metric record (route.ts step 5). -/
structure VideoMetric where
  videoId : String
  title : String
  publishedMs : ℤ
  viewCount : ℕ
  likeCount : ℕ
  commentCount : ℕ
  durationSeconds : ℕ
  daysSincePublish : ℤ
  viewsPerDay : ℚ
  engagementRate : Option ℚ
  velocityScore : JsNum
  velocityLabel : String
deriving DecidableEq, Repr

/-- Route.ts line 387: `Math.max(1, Math.floor((now - publishedMs) / 86_400_000))`. -/
def daysSincePublishOf (now publishedMs : ℤ) : ℤ :=
  max 1 ((now - publishedMs).fdiv 86400000)

/-- Route.ts lines 381-403: the per-video base metrics. -/
def mkBaseVideo (now : ℤ) (v : RawVideo) : BaseVideo :=
  { videoId := v.videoId
    title := v.title
    publishedMs := v.publishedMs
    viewCount := v.viewCount
    likeCount := v.likeCount
    commentCount := v.commentCount
    durationSeconds := v.durationSeconds
    daysSincePublish := daysSincePublishOf now v.publishedMs
    viewsPerDay := (v.viewCount : ℚ) / ((daysSincePublishOf now v.publishedMs : ℤ) : ℚ)
    engagementRate :=
      if 0 < v.viewCount
      then some (((v.likeCount : ℚ) + (v.commentCount : ℚ)) / (v.viewCount : ℚ))
      else none }

/-- Route.ts line 91-96: `getVelocityLabel`. -/
def getVelocityLabel (score : ℚ) : String :=
  if score ≥ 3/2 then "Exploding"
  else if score ≥ 11/10 then "Outperforming"
  else if score ≥ 9/10 then "Baseline"
  else "Underperforming"

/-- getVelocityLabel applied to a possibly non-finite JS score: with NaN all
threshold comparisons are false, so the label falls through to
"Underperforming"; +Infinity passes the first comparison. -/
def velocityLabelJs : JsNum → String
  | JsNum.num q => getVelocityLabel q
  | JsNum.posInf => "Exploding"
  | _ => "Underperforming"

/-- Route.ts line 406: `avg(baseVideos.map(v => v.viewsPerDay)) ?? 1` — the
`?? 1` fallback fires only when `avg` returns null, i.e. only on an empty
video list. -/
def channelAvgVpd (base : List BaseVideo) : ℚ :=
  (avg (base.map (fun v => v.viewsPerDay))).getD 1

/-- Route.ts lines 408-412: attach the velocity score (rounded to 3 decimal
digits) and the velocity label, both computed by the JS division
`v.viewsPerDay / channelAvgVpd`. -/
def enrichVideo (c : ℚ) (v : BaseVideo) : VideoMetric :=
  { videoId := v.videoId
    title := v.title
    publishedMs := v.publishedMs
    viewCount := v.viewCount
    likeCount := v.likeCount
    commentCount := v.commentCount
    durationSeconds := v.durationSeconds
    daysSincePublish := v.daysSincePublish
    viewsPerDay := v.viewsPerDay
    engagementRate := v.engagementRate
    velocityScore := toFixedJs 3 (jsDivQ v.viewsPerDay c)
    velocityLabel := velocityLabelJs (jsDivQ v.viewsPerDay c) }

/-- Route.ts line 415: `enriched.sort((a, b) => b.viewsPerDay - a.viewsPerDay)`,
a stable descending sort by viewsPerDay. -/
def sortByVpdDesc (l : List VideoMetric) : List VideoMetric :=
  List.insertionSort (fun a b => b.viewsPerDay ≤ a.viewsPerDay) l

/-- The enriched, descending-sorted video list of route.ts steps 4-5. -/
def enrichedOf (now : ℤ) (raws : List RawVideo) : List VideoMetric :=
  sortByVpdDesc
    ((raws.map (mkBaseVideo now)).map
      (enrichVideo (channelAvgVpd (raws.map (mkBaseVideo now)))))

-- ── Quartiles (route.ts lines 418-420) ──────────────────────────────────────

/-- Route.ts line 418: `Math.max(1, Math.floor(enriched.length / 4))`. -/
def qSizeOf (n : ℕ) : ℕ := max 1 (n / 4)

/-- JS `Array.prototype.slice(start, stop)` with negative-index and clamping
semantics. -/
def jsSlice2 {α : Type} (l : List α) (start stop : ℤ) : List α :=
  let n : ℤ := l.length
  let s := (if start < 0 then max 0 (n + start) else min start n).toNat
  let e := (if stop < 0 then max 0 (n + stop) else min stop n).toNat
  (l.take e).drop s

/-- JS `Array.prototype.slice(start)` (to the end of the array). -/
def jsSliceFrom {α : Type} (l : List α) (start : ℤ) : List α :=
  jsSlice2 l start l.length

/-- Route.ts line 419: `enriched.slice(0, qSize)`. -/
def topQOf {α : Type} (l : List α) : List α :=
  jsSlice2 l 0 (qSizeOf l.length)

/-- Route.ts line 420: `enriched.slice(enriched.length - qSize)`. -/
def bottomQOf {α : Type} (l : List α) : List α :=
  jsSliceFrom l ((l.length : ℤ) - (qSizeOf l.length : ℤ))

-- ── Velocity distribution (route.ts lines 423-428) ──────────────────────────

structure VelocityDist where
  exploding : ℕ
  outperforming : ℕ
  baseline : ℕ
  underperforming : ℕ
deriving DecidableEq, Repr

/-- Route.ts lines 423-428: band counts over the recorded (rounded) velocity
scores, with JS comparison semantics. -/
def velocityDistOf (l : List VideoMetric) : VelocityDist :=
  { exploding := (l.filter (fun v => v.velocityScore.geQ (3/2))).length
    outperforming :=
      (l.filter (fun v => v.velocityScore.geQ (11/10) && v.velocityScore.ltQ (3/2))).length
    baseline :=
      (l.filter (fun v => v.velocityScore.geQ (9/10) && v.velocityScore.ltQ (11/10))).length
    underperforming := (l.filter (fun v => v.velocityScore.ltQ (9/10))).length }

-- ── Title structure analysis (route.ts lines 100-127) ───────────────────────

structure TitleMetrics where
  pctWithNumbers : ℚ
  pctWithQuestion : ℚ
  pctWithComparison : ℚ
  pctWithEmotional : ℚ
  avgCharLength : ℚ
  avgWordCount : ℚ
deriving DecidableEq, Repr

/-- Route.ts line 115: `t.trim().split(/\s+/).length`.  On an empty trimmed
string the JS split yields `[""]`, of length 1. -/
def jsWordCount (t : String) : ℕ :=
  if (trimL t.data).isEmpty then 1 else (wordChunks (trimL t.data)).length

/-- Route.ts lines 100-127: `computeTitleMetrics`.  The counting loop is
modelled by filters; all six aggregates are 0 on an empty input. -/
def computeTitleMetrics (videos : List VideoMetric) : TitleMetrics :=
  if videos.length = 0 then
    { pctWithNumbers := 0, pctWithQuestion := 0, pctWithComparison := 0,
      pctWithEmotional := 0, avgCharLength := 0, avgWordCount := 0 }
  else
    { pctWithNumbers := ((videos.filter (fun v => hasDigitT v.title)).length : ℚ) / videos.length
      pctWithQuestion := ((videos.filter (fun v => hasQuestionT v.title)).length : ℚ) / videos.length
      pctWithComparison := ((videos.filter (fun v => hasComparisonT v.title)).length : ℚ) / videos.length
      pctWithEmotional := ((videos.filter (fun v => hasEmotionalT v.title)).length : ℚ) / videos.length
      avgCharLength := ((videos.map (fun v => v.title.length)).sum : ℚ) / videos.length
      avgWordCount := ((videos.map (fun v => jsWordCount v.title)).sum : ℚ) / videos.length }

-- ── Upload cadence (route.ts lines 129-181) ─────────────────────────────────

structure UploadCadence where
  avgDaysBetweenUploads : ℚ
  uploadsPerWeek : ℚ
  bestDayOfWeek : String
  bestDayAvgVpd : ℚ
  bestHourBucket : String
  bestHourAvgVpd : ℚ
deriving DecidableEq, Repr

/-- Route.ts lines 130-132: stable ascending sort by publish time. -/
def sortByTimeAsc (videos : List VideoMetric) : List VideoMetric :=
  List.insertionSort (fun a b => a.publishedMs ≤ b.publishedMs) videos

/-- Route.ts lines 134-140: consecutive day gaps over the time-sorted list,
keeping only the non-negative ones. -/
def dayGapsOf (videos : List VideoMetric) : List ℚ :=
  (((sortByTimeAsc videos).zip (sortByTimeAsc videos).tail).map
    (fun pr => ((pr.2.publishedMs - pr.1.publishedMs : ℤ) : ℚ) / 86400000)).filter
    (fun d => 0 ≤ d)

/-- Route.ts line 141: `avg(dayGaps) ?? 0`. -/
def avgGapOf (videos : List VideoMetric) : ℚ := (avg (dayGapsOf videos)).getD 0

/-- Route.ts line 142: `avgDaysBetweenUploads > 0 ? +(7 / avgDaysBetweenUploads).toFixed(2) : 0`. -/
def uploadsPerWeekOf (videos : List VideoMetric) : ℚ :=
  if 0 < avgGapOf videos then toFixedQ 2 (7 / avgGapOf videos) else 0

/-- UTC weekday of an epoch-millisecond timestamp (the epoch was a Thursday,
weekday 4); `getDay()` under the UTC runtime timezone the route is deployed
with (spec section 4.6 prescribes UTC). -/
def jsGetUTCDay (ms : ℤ) : ℤ := (ms.fdiv 86400000 + 4) % 7

/-- UTC hour of an epoch-millisecond timestamp (`getUTCHours`). -/
def jsGetUTCHours (ms : ℤ) : ℤ := ms.fdiv 3600000 % 24

/-- The viewsPerDay values of the videos published on weekday `d`
(`dayGroups[d]`, in input order). -/
def dayGroupVpds (videos : List VideoMetric) (d : ℤ) : List ℚ :=
  (videos.filter (fun v => jsGetUTCDay v.publishedMs = d)).map (fun v => v.viewsPerDay)

/-- Route.ts lines 150-154: fold over `Object.entries(dayGroups)` — numeric
keys enumerate ascending, absent (empty) groups are absent from the object —
starting from `bestDay = 0, bestDayAvgVpd = -1`, updating on strictly greater
group averages. -/
def bestDayPair (videos : List VideoMetric) : ℤ × ℚ :=
  (List.range 7).foldl
    (fun best d =>
      let grp := dayGroupVpds videos (d : ℤ)
      if grp.length = 0 then best
      else if best.2 < grp.sum / grp.length then ((d : ℤ), grp.sum / grp.length) else best)
    (0, -1)

/-- Route.ts lines 160-163: the four fixed UTC hour buckets. -/
def hourBucketOf (h : ℤ) : String :=
  if 6 ≤ h ∧ h < 12 then "morning"
  else if 12 ≤ h ∧ h < 18 then "afternoon"
  else if 18 ≤ h ∧ h < 22 then "evening"
  else "night"

/-- The viewsPerDay values of the videos falling in hour bucket `b`. -/
def bucketVpds (videos : List VideoMetric) (b : String) : List ℚ :=
  (videos.filter (fun v => hourBucketOf (jsGetUTCHours v.publishedMs) = b)).map
    (fun v => v.viewsPerDay)

/-- Route.ts lines 166-171: fold over the four buckets in insertion order,
skipping empty buckets, starting from `bestBucket = "morning", bestHourAvgVpd = -1`. -/
def bestHourPair (videos : List VideoMetric) : String × ℚ :=
  ["morning", "afternoon", "evening", "night"].foldl
    (fun best b =>
      let grp := bucketVpds videos b
      if grp.length = 0 then best
      else if best.2 < grp.sum / grp.length then (b, grp.sum / grp.length) else best)
    ("morning", -1)

/-- Route.ts lines 129-181: `computeUploadCadence`. -/
def computeUploadCadence (videos : List VideoMetric) : UploadCadence :=
  { avgDaysBetweenUploads := toFixedQ 1 (avgGapOf videos)
    uploadsPerWeek := uploadsPerWeekOf videos
    bestDayOfWeek := DAY_NAMES.getD (bestDayPair videos).1.toNat "Sunday"
    bestDayAvgVpd := toFixedQ 0 (bestDayPair videos).2
    bestHourBucket := (bestHourPair videos).1
    bestHourAvgVpd := toFixedQ 0 (bestHourPair videos).2 }

-- ── Format clusters (route.ts lines 183-199) ────────────────────────────────

structure FormatCluster where
  name : String
  count : ℕ
  avgViewsPerDay : ℚ
  avgEngagementRate : Option ℚ
deriving DecidableEq, Repr

/-- Route.ts lines 185-196: one cluster record for one pattern. -/
def mkCluster (videos : List VideoMetric) (p : String × (String → Bool)) : FormatCluster :=
  let matched := videos.filter (fun v => p.2 v.title)
  { name := p.1
    count := matched.length
    avgViewsPerDay := toFixedQ 1 ((avg (matched.map (fun v => v.viewsPerDay))).getD 0)
    avgEngagementRate :=
      (avg ((matched.map (fun v => v.engagementRate)).filterMap id)).map (toFixedQ 4) }

/-- Route.ts lines 183-199: `computeFormatClusters` — map over the patterns,
drop zero-match clusters, stable-sort descending by avgViewsPerDay. -/
def computeFormatClusters (videos : List VideoMetric) : List FormatCluster :=
  List.insertionSort (fun a b => b.avgViewsPerDay ≤ a.avgViewsPerDay)
    ((FORMAT_PATTERNS.map (mkCluster videos)).filter (fun c => 0 < c.count))

-- ── Keyword extraction (route.ts lines 437-451) ─────────────────────────────

/-- Tokenisation of route.ts lines 439-443: lower-case, DELETE every
character outside `[a-z0-9\s]` (`replace(/[^a-z0-9\s]/g, "")` — removal, not
space replacement), split on whitespace, keep tokens of length > 1 that are
not stopwords. -/
def tokenizeKeywords (t : String) : List String :=
  (((splitRuns
      ((toLowerL t.data).filter
        (fun c => isLowerAlpha c || isDigitCh c || isSpaceChar c))).map
    (fun w => String.mk w)).filter
    (fun w => 1 < w.length && !(STOPWORDS.contains w)))

/-- One step of `wordFreq[word] = (wordFreq[word] ?? 0) + 1` on the
insertion-ordered association list modelling the JS object. -/
def bump : List (String × ℕ) → String → List (String × ℕ)
  | [], w => [(w, 1)]
  | (k, n) :: rest, w =>
    if k = w then (k, n + 1) :: rest else (k, n) :: bump rest w

/-- Route.ts lines 437-447: accumulate the word-frequency object over all
titles of the set. -/
def buildFreq (titles : List String) : List (String × ℕ) :=
  titles.foldl (fun m t => (tokenizeKeywords t).foldl bump m) []

/-- Is the string the canonical decimal numeral of an array index
(`0 ≤ n < 2^32 - 1`)?  JS objects enumerate such keys first, in ascending
numeric order. -/
def parseNatL (s : List Char) : ℕ :=
  s.foldl (fun n c => n * 10 + (c.toNat - 48)) 0

def isArrayIndexKey (s : List Char) : Bool :=
  !s.isEmpty && s.all isDigitCh && (s = ['0'] || s.head? ≠ some '0') &&
  parseNatL s < 4294967295

/-- JS `Object.entries` enumeration order: array-index keys in ascending
numeric order first, then the remaining keys in insertion order. -/
def jsEntries (m : List (String × ℕ)) : List (String × ℕ) :=
  List.insertionSort (fun a b => parseNatL a.1.data ≤ parseNatL b.1.data)
    (m.filter (fun p => isArrayIndexKey p.1.data)) ++
  m.filter (fun p => !isArrayIndexKey p.1.data)

/-- Route.ts line 449: `.sort((a, b) => b[1] - a[1])`, a stable descending
sort by count. -/
def sortEntriesByCountDesc (l : List (String × ℕ)) : List (String × ℕ) :=
  List.insertionSort (fun a b => b.2 ≤ a.2) l

/-- Route.ts lines 448-451: `topTitleKeywords` over the titles of the top
quartile. -/
def topTitleKeywords (titles : List String) : List (String × ℕ) :=
  (sortEntriesByCountDesc (jsEntries (buildFreq titles))).take 10

-- ── Downstream averages and the report object ───────────────────────────────

/-- Route.ts lines 433-434: `avg(q.map(v => v.engagementRate).filter(e => e !== null))`. -/
def avgEngagementOf (vs : List VideoMetric) : Option ℚ :=
  avg ((vs.map (fun v => v.engagementRate)).filterMap id)

/-- Route.ts lines 431-432: `avg(q.map(v => v.durationSeconds))`. -/
def avgDurationOf (vs : List VideoMetric) : Option ℚ :=
  avg (vs.map (fun v => (v.durationSeconds : ℚ)))

/-- The numeric/structured part of the response object of route.ts lines
473-490 (the synthesized `aiSummary` prose strings are outside this model). -/
structure Report where
  channelAvgVpdOut : ℚ
  avgDurationTop : Option ℚ
  avgDurationBottom : Option ℚ
  avgEngagementTop : Option ℚ
  avgEngagementBottom : Option ℚ
  topTitleKeywordsOut : List (String × ℕ)
  velocityDistribution : VelocityDist
  topVideos : List VideoMetric
  bottomVideos : List VideoMetric
  titleTop : TitleMetrics
  titleBottom : TitleMetrics
  uploadCadence : UploadCadence
  formatClusters : List FormatCluster
deriving DecidableEq, Repr

/-- Route.ts lines 378-490: the whole analytics computation downstream of the
fetch, from the raw records and the capture time to the response object. -/
def buildReport (now : ℤ) (raws : List RawVideo) : Report :=
  let enriched := enrichedOf now raws
  let topQ := topQOf enriched
  let bottomQ := bottomQOf enriched
  { channelAvgVpdOut := toFixedQ 1 (channelAvgVpd (raws.map (mkBaseVideo now)))
    avgDurationTop := avgDurationOf topQ
    avgDurationBottom := avgDurationOf bottomQ
    avgEngagementTop := avgEngagementOf topQ
    avgEngagementBottom := avgEngagementOf bottomQ
    topTitleKeywordsOut := topTitleKeywords (topQ.map (fun v => v.title))
    velocityDistribution := velocityDistOf enriched
    topVideos := jsSlice2 enriched 0 15
    bottomVideos := jsSliceFrom enriched (-15)
    titleTop := computeTitleMetrics topQ
    titleBottom := computeTitleMetrics bottomQ
    uploadCadence := computeUploadCadence enriched
    formatClusters := computeFormatClusters enriched }

-- ── The keyword extractor the specification describes (for claim C6) ────────

/-- Modelled from the spec (section 4.8): the claimed tokenisation REPLACES
every non-alphanumeric character WITH WHITESPACE (the source deletes such
characters instead). -/
def tokenizeKeywordsClaimed (t : String) : List String :=
  (((splitRuns
      ((toLowerL t.data).map
        (fun c => if isLowerAlpha c || isDigitCh c then c else ' '))).map
    (fun w => String.mk w)).filter
    (fun w => 1 < w.length && !(STOPWORDS.contains w)))

/-- Modelled from the spec (section 4.8): frequency accumulation over the
claimed tokens. -/
def buildFreqClaimed (titles : List String) : List (String × ℕ) :=
  titles.foldl (fun m t => (tokenizeKeywordsClaimed t).foldl bump m) []

/-- Modelled from the spec (section 4.8): sort descending by frequency with
ties broken by FIRST-INSERTION order (no array-index key reordering),
truncate to 10. -/
def topTitleKeywordsClaimed (titles : List String) : List (String × ℕ) :=
  (sortEntriesByCountDesc (buildFreqClaimed titles)).take 10

-- ── Sample inputs for witnesses and counterexamples ─────────────────────────

/-- A fetched video with zero views, captured 10 days after publication. -/
def rawZero : RawVideo :=
  { videoId := "v0", title := "Zero views", publishedMs := 0,
    viewCount := 0, likeCount := 0, commentCount := 0, durationSeconds := 60 }

/-- A fetched video with 20 views, captured 10 days after publication. -/
def rawPos : RawVideo :=
  { videoId := "v1", title := "Why is 7 best?", publishedMs := 0,
    viewCount := 20, likeCount := 2, commentCount := 1, durationSeconds := 300 }

/-- An enriched metric record with null engagement (its view count is 0). -/
def vmNone : VideoMetric :=
  { videoId := "w", title := "t", publishedMs := 0, viewCount := 0,
    likeCount := 0, commentCount := 0, durationSeconds := 0,
    daysSincePublish := 1, viewsPerDay := 0, engagementRate := none,
    velocityScore := JsNum.nan, velocityLabel := "Underperforming" }

-- ── Helper lemmas about avg ─────────────────────────────────────────────────

lemma avg_eq_none_iff (l : List ℚ) : avg l = none ↔ l = [] := by
  unfold avg
  rcases l with _ | ⟨a, t⟩ <;> simp

lemma avg_of_ne_nil (l : List ℚ) (h : l ≠ []) :
    avg l = some (l.sum / (l.length : ℚ)) := by
  unfold avg
  rw [if_neg]
  simpa [List.length_eq_zero] using h

lemma sum_eq_zero_of_nonneg (l : List ℚ) (h : ∀ x ∈ l, 0 ≤ x) (hs : l.sum = 0) :
    ∀ x ∈ l, x = 0 := by
  induction l with
  | nil => simp
  | cons a t ih =>
    have ha : 0 ≤ a := h a (List.mem_cons_self a t)
    have ht : ∀ x ∈ t, 0 ≤ x := fun x hx => h x (List.mem_cons_of_mem a hx)
    have hts : 0 ≤ t.sum := List.sum_nonneg ht
    have hsum : a + t.sum = 0 := by simpa using hs
    have ha0 : a = 0 := by linarith
    have hts0 : t.sum = 0 := by linarith
    intro x hx
    rcases List.mem_cons.mp hx with rfl | hx
    · exact ha0
    · exact ih ht hts0 x hx

lemma sum_pos_of_mem (l : List ℚ) (h : ∀ y ∈ l, 0 ≤ y) (x : ℚ) (hx : x ∈ l)
    (hxp : 0 < x) : 0 < l.sum := by
  induction l with
  | nil => cases hx
  | cons a t ih =>
    have ht : ∀ y ∈ t, 0 ≤ y := fun y hy => h y (List.mem_cons_of_mem a hy)
    have hts : 0 ≤ t.sum := List.sum_nonneg ht
    rcases List.mem_cons.mp hx with rfl | hx
    · have : x + t.sum > 0 := by linarith
      simpa using this
    · have := ih ht hx
      have ha : 0 ≤ a := h a (List.mem_cons_self a t)
      have : 0 < a + t.sum := by linarith
      simpa using this

/-- viewsPerDay of every base video is non-negative. -/
lemma viewsPerDay_nonneg (now : ℤ) (v : RawVideo) :
    0 ≤ (mkBaseVideo now v).viewsPerDay := by
  unfold mkBaseVideo
  apply div_nonneg (Nat.cast_nonneg _)
  have h1 : (1 : ℤ) ≤ daysSincePublishOf now v.publishedMs := le_max_left _ _
  exact_mod_cast le_trans zero_le_one h1

lemma daysSincePublish_cast_pos (now : ℤ) (v : RawVideo) :
    (0 : ℚ) < ((daysSincePublishOf now v.publishedMs : ℤ) : ℚ) := by
  have h1 : (1 : ℤ) ≤ daysSincePublishOf now v.publishedMs := le_max_left _ _
  exact_mod_cast lt_of_lt_of_le zero_lt_one h1

-- ── C1 ──────────────────────────────────────────────────────────────────────

/-- C1: for every velocity score s, getVelocityLabel returns "Exploding" iff
s ≥ 1.5, "Outperforming" iff 1.1 ≤ s < 1.5, "Baseline" iff 0.9 ≤ s < 1.1 and
"Underperforming" iff s < 0.9; every lower bound is inclusive, so 1.5 maps to
"Exploding", 1.1 to "Outperforming" and 0.9 to "Baseline". -/
theorem velocity_label_bands (s : ℚ) :
    (getVelocityLabel s = "Exploding" ↔ 3/2 ≤ s) ∧
    (getVelocityLabel s = "Outperforming" ↔ 11/10 ≤ s ∧ s < 3/2) ∧
    (getVelocityLabel s = "Baseline" ↔ 9/10 ≤ s ∧ s < 11/10) ∧
    (getVelocityLabel s = "Underperforming" ↔ s < 9/10) ∧
    getVelocityLabel (3/2) = "Exploding" ∧
    getVelocityLabel (11/10) = "Outperforming" ∧
    getVelocityLabel (9/10) = "Baseline" := by
  have c1 : getVelocityLabel (3/2) = "Exploding" := by norm_num [getVelocityLabel]
  have c2 : getVelocityLabel (11/10) = "Outperforming" := by norm_num [getVelocityLabel]
  have c3 : getVelocityLabel (9/10) = "Baseline" := by norm_num [getVelocityLabel]
  have d1 : ("Outperforming" : String) ≠ "Exploding" := by decide
  have d2 : ("Baseline" : String) ≠ "Exploding" := by decide
  have d3 : ("Underperforming" : String) ≠ "Exploding" := by decide
  have d4 : ("Exploding" : String) ≠ "Outperforming" := by decide
  have d5 : ("Baseline" : String) ≠ "Outperforming" := by decide
  have d6 : ("Underperforming" : String) ≠ "Outperforming" := by decide
  have d7 : ("Exploding" : String) ≠ "Baseline" := by decide
  have d8 : ("Outperforming" : String) ≠ "Baseline" := by decide
  have d9 : ("Underperforming" : String) ≠ "Baseline" := by decide
  have d10 : ("Exploding" : String) ≠ "Underperforming" := by decide
  have d11 : ("Outperforming" : String) ≠ "Underperforming" := by decide
  have d12 : ("Baseline" : String) ≠ "Underperforming" := by decide
  refine ⟨?_, ?_, ?_, ?_, c1, c2, c3⟩
  · unfold getVelocityLabel
    split_ifs with h1 h2 h3
    · exact iff_of_true rfl h1
    · exact iff_of_false d1 h1
    · exact iff_of_false d2 h1
    · exact iff_of_false d3 h1
  · unfold getVelocityLabel
    split_ifs with h1 h2 h3
    · exact iff_of_false d4 (fun hc => absurd hc.2 (not_lt.mpr h1))
    · exact iff_of_true rfl ⟨h2, not_le.mp h1⟩
    · exact iff_of_false d5 (fun hc => h2 hc.1)
    · exact iff_of_false d6 (fun hc => h2 hc.1)
  · unfold getVelocityLabel
    split_ifs with h1 h2 h3
    · exact iff_of_false d7 (fun hc => absurd hc.2 (not_lt.mpr (le_trans (by norm_num) h1)))
    · exact iff_of_false d8 (fun hc => absurd hc.2 (not_lt.mpr h2))
    · exact iff_of_true rfl ⟨h3, not_le.mp h2⟩
    · exact iff_of_false d9 (fun hc => h3 hc.1)
  · unfold getVelocityLabel
    split_ifs with h1 h2 h3
    · exact iff_of_false d10 (not_lt.mpr (le_trans (by norm_num) h1))
    · exact iff_of_false d11 (not_lt.mpr (le_trans (by norm_num) h2))
    · exact iff_of_false d12 (not_lt.mpr h3)
    · exact iff_of_true rfl (not_le.mp h3)

-- ── C4 ──────────────────────────────────────────────────────────────────────

/-- C4: daysSincePublish equals max(1, floor((now − publishedAt)/86400000 ms)),
is always at least 1, and viewsPerDay = viewCount / daysSincePublish is the
result of a JS division with a provably nonzero denominator, hence finite. -/
theorem days_since_publish_bounds (now : ℤ) (v : RawVideo) :
    (mkBaseVideo now v).daysSincePublish = max 1 ((now - v.publishedMs).fdiv 86400000) ∧
    1 ≤ (mkBaseVideo now v).daysSincePublish ∧
    (mkBaseVideo now v).viewsPerDay
      = (v.viewCount : ℚ) / (((mkBaseVideo now v).daysSincePublish : ℤ) : ℚ) ∧
    jsDivQ (v.viewCount : ℚ) (((mkBaseVideo now v).daysSincePublish : ℤ) : ℚ)
      = JsNum.num ((mkBaseVideo now v).viewsPerDay) := by
  refine ⟨rfl, le_max_left _ _, rfl, ?_⟩
  unfold jsDivQ
  have hpos : (0 : ℚ) < (((mkBaseVideo now v).daysSincePublish : ℤ) : ℚ) :=
    daysSincePublish_cast_pos now v
  rw [if_neg (ne_of_gt hpos)]
  rfl

-- ── C5 ──────────────────────────────────────────────────────────────────────

/-- C5: engagementRate is (likes + comments)/views when views > 0 and null
when views = 0, and null engagement values are excluded from the downstream
quartile engagement averages (prepending or appending a null-engagement video
leaves the average unchanged). -/
theorem engagement_rate_null_safe (now : ℤ) (v : RawVideo) (q : List VideoMetric)
    (w : VideoMetric) (h : w.engagementRate = none) :
    ((mkBaseVideo now v).engagementRate
      = if 0 < v.viewCount
        then some (((v.likeCount : ℚ) + (v.commentCount : ℚ)) / (v.viewCount : ℚ))
        else none) ∧
    (v.viewCount = 0 → (mkBaseVideo now v).engagementRate = none) ∧
    avgEngagementOf (w :: q) = avgEngagementOf q ∧
    avgEngagementOf (q ++ [w]) = avgEngagementOf q := by
  refine ⟨rfl, ?_, ?_, ?_⟩
  · intro h0
    simp [mkBaseVideo, h0]
  · simp [avgEngagementOf, h]
  · simp [avgEngagementOf, h]

/-- Witness for C5 at a concrete zero-view video and a concrete null-engagement
quartile element. -/
theorem engagement_rate_null_safe_witness :
    (mkBaseVideo 864000000 rawZero).engagementRate = none ∧
    avgEngagementOf [vmNone] = avgEngagementOf [] :=
  ⟨(engagement_rate_null_safe 864000000 rawZero [] vmNone rfl).2.1 rfl,
   (engagement_rate_null_safe 864000000 rawZero [] vmNone rfl).2.2.1⟩

-- ── C3 ──────────────────────────────────────────────────────────────────────

lemma jsSlice2_take {α : Type} (l : List α) (q : ℕ) (hq : q ≤ l.length) :
    jsSlice2 l 0 (q : ℤ) = l.take q := by
  simp only [jsSlice2]
  rw [if_neg (by omega : ¬((0 : ℤ) < 0)), if_neg (by omega : ¬((q : ℤ) < 0))]
  rw [min_eq_left (by omega : (0 : ℤ) ≤ (l.length : ℤ))]
  rw [min_eq_left (by exact_mod_cast hq : (q : ℤ) ≤ (l.length : ℤ))]
  simp [Int.toNat_natCast]

lemma jsSliceFrom_drop {α : Type} (l : List α) (k : ℕ) (hk : k ≤ l.length) :
    jsSliceFrom l (k : ℤ) = l.drop k := by
  simp only [jsSliceFrom, jsSlice2]
  rw [if_neg (by omega : ¬((k : ℤ) < 0)), if_neg (by omega : ¬((l.length : ℤ) < 0))]
  rw [min_eq_left (by exact_mod_cast hk : (k : ℤ) ≤ (l.length : ℤ))]
  rw [min_self]
  simp [Int.toNat_natCast, List.take_length]

lemma qSizeOf_le {n : ℕ} (h : 1 ≤ n) : qSizeOf n ≤ n :=
  max_le h (Nat.div_le_self n 4)

/-- C3: the quartile size is max(1, ⌊n/4⌋), the top quartile is the first
qSize elements, the bottom quartile is the last qSize elements of the same
sorted list, and for n = 1 both quartiles are the whole (single-element)
list. -/
theorem quartile_slicing {α : Type} (l : List α) (h : 1 ≤ l.length) :
    qSizeOf l.length = max 1 (l.length / 4) ∧
    topQOf l = l.take (qSizeOf l.length) ∧
    bottomQOf l = l.drop (l.length - qSizeOf l.length) ∧
    (topQOf l).length = qSizeOf l.length ∧
    (bottomQOf l).length = qSizeOf l.length ∧
    (l.length = 1 → topQOf l = l ∧ bottomQOf l = l) := by
  have hq : qSizeOf l.length ≤ l.length := qSizeOf_le h
  have htop : topQOf l = l.take (qSizeOf l.length) := jsSlice2_take l _ hq
  have hcast : ((l.length : ℤ) - (qSizeOf l.length : ℤ))
      = ((l.length - qSizeOf l.length : ℕ) : ℤ) := by
    push_cast [hq]
    omega
  have hbot : bottomQOf l = l.drop (l.length - qSizeOf l.length) := by
    unfold bottomQOf
    rw [hcast]
    exact jsSliceFrom_drop l _ (Nat.sub_le _ _)
  refine ⟨rfl, htop, hbot, ?_, ?_, ?_⟩
  · rw [htop, List.length_take]
    exact min_eq_left hq
  · rw [hbot, List.length_drop]
    omega
  · intro h1
    have hq1 : qSizeOf l.length = l.length := by
      rw [h1]
      rfl
    constructor
    · rw [htop, hq1, List.take_length]
    · rw [hbot, hq1, Nat.sub_self, List.drop_zero]

/-- Witness for C3 on a one-element list: top and bottom quartile are the
whole list. -/
theorem quartile_slicing_witness :
    topQOf [(5 : ℕ)] = [(5 : ℕ)] ∧ bottomQOf [(5 : ℕ)] = [(5 : ℕ)] :=
  (quartile_slicing [(5 : ℕ)] (by decide)).2.2.2.2.2 (by decide)

-- ── C2 ──────────────────────────────────────────────────────────────────────

/-- Counterexample to C2: a non-empty fetched set (one video, zero views)
where the channel mean views-per-day is 0 — the denominator is NOT replaced
by 1 (the `?? 1` fallback fires only on `null`, i.e. only for an empty list)
and the velocity score is NaN. -/
theorem velocity_nan_cex :
    channelAvgVpd ([rawZero].map (mkBaseVideo 864000000)) = 0 ∧
    (enrichVideo (channelAvgVpd ([rawZero].map (mkBaseVideo 864000000)))
        (mkBaseVideo 864000000 rawZero)).velocityScore = JsNum.nan := by
  with_unfolding_all decide

/-- C2 as amended: for a non-empty fetched set the denominator is the plain
mean of viewsPerDay (the `?? 1` fallback never fires); velocity scores are
finite whenever that mean is nonzero, and are all NaN when the mean is 0
(which happens exactly when every video has zero views). -/
theorem velocity_nan_amended (now : ℤ) (raws : List RawVideo) (h : raws ≠ []) :
    channelAvgVpd (raws.map (mkBaseVideo now))
      = ((raws.map (mkBaseVideo now)).map (fun v => v.viewsPerDay)).sum
        / (((raws.map (mkBaseVideo now)).map (fun v => v.viewsPerDay)).length : ℚ) ∧
    (channelAvgVpd (raws.map (mkBaseVideo now)) ≠ 0 →
      ∀ v ∈ raws.map (mkBaseVideo now),
        (enrichVideo (channelAvgVpd (raws.map (mkBaseVideo now))) v).velocityScore
          = JsNum.num (toFixedQ 3 (v.viewsPerDay / channelAvgVpd (raws.map (mkBaseVideo now))))) ∧
    (channelAvgVpd (raws.map (mkBaseVideo now)) = 0 →
      ∀ v ∈ raws.map (mkBaseVideo now),
        (enrichVideo (channelAvgVpd (raws.map (mkBaseVideo now))) v).velocityScore
          = JsNum.nan) := by
  set base := raws.map (mkBaseVideo now) with hbase
  have hb : base ≠ [] := by
    intro hnil
    exact h (List.map_eq_nil_iff.mp (hbase ▸ hnil))
  have hlen : base.map (fun v => v.viewsPerDay) ≠ [] := by
    simpa using hb
  have h1 : channelAvgVpd base
      = (base.map (fun v => v.viewsPerDay)).sum
        / ((base.map (fun v => v.viewsPerDay)).length : ℚ) := by
    unfold channelAvgVpd
    rw [avg_of_ne_nil _ hlen]
    rfl
  refine ⟨h1, ?_, ?_⟩
  · intro hc v hv
    show toFixedJs 3 (jsDivQ v.viewsPerDay (channelAvgVpd base)) = _
    unfold jsDivQ
    rw [if_neg hc]
    rfl
  · intro hc v hv
    have hnn : ∀ x ∈ base.map (fun v => v.viewsPerDay), 0 ≤ x := by
      intro x hx
      rcases List.mem_map.mp hx with ⟨b, hb2, rfl⟩
      rcases List.mem_map.mp (hbase ▸ hb2) with ⟨r, _, rfl⟩
      exact viewsPerDay_nonneg now r
    have hlq : ((base.map (fun v => v.viewsPerDay)).length : ℚ) ≠ 0 := by
      have : base.map (fun v => v.viewsPerDay) ≠ [] := hlen
      have hpos : 0 < (base.map (fun v => v.viewsPerDay)).length :=
        List.length_pos.mpr this
      exact_mod_cast Nat.pos_iff_ne_zero.mp hpos
  -- from mean = 0 and a nonzero length, the sum is 0, so every term is 0
    have hsum0 : (base.map (fun v => v.viewsPerDay)).sum = 0 := by
      rw [h1] at hc
      rcases div_eq_zero_iff.mp hc with h0 | h0
      · exact h0
      · exact absurd h0 hlq
    have hv0 : v.viewsPerDay = 0 :=
      sum_eq_zero_of_nonneg _ hnn hsum0 _ (List.mem_map_of_mem _ hv)
    show toFixedJs 3 (jsDivQ v.viewsPerDay (channelAvgVpd base)) = _
    unfold jsDivQ
    rw [if_pos hc, if_pos hv0]
    rfl

/-- Witness for the amended C2 at the concrete all-zero-views set. -/
theorem velocity_nan_amended_witness :
    (enrichVideo (channelAvgVpd ([rawZero].map (mkBaseVideo 864000000)))
        (mkBaseVideo 864000000 rawZero)).velocityScore = JsNum.nan :=
  (velocity_nan_amended 864000000 [rawZero] (by simp)).2.2
    (by with_unfolding_all decide) (mkBaseVideo 864000000 rawZero) (by simp)

-- ── C10 ─────────────────────────────────────────────────────────────────────

/-- A finite velocity score lies in exactly one of the four bands. -/
lemma bands_partition (q : ℚ) :
    ((JsNum.num q).geQ (3/2)).toNat
      + ((JsNum.num q).geQ (11/10) && (JsNum.num q).ltQ (3/2)).toNat
      + ((JsNum.num q).geQ (9/10) && (JsNum.num q).ltQ (11/10)).toNat
      + ((JsNum.num q).ltQ (9/10)).toNat = 1 := by
  simp only [JsNum.geQ, JsNum.ltQ]
  rcases lt_or_le q (9/10) with h1 | h1
  · have n1 : ¬((3 : ℚ)/2 ≤ q) := by linarith
    have n2 : ¬((11 : ℚ)/10 ≤ q) := by linarith
    have n3 : ¬((9 : ℚ)/10 ≤ q) := by linarith
    simp [h1, n1, n2, n3]
  · rcases lt_or_le q (11/10) with h2 | h2
    · have n1 : ¬((3 : ℚ)/2 ≤ q) := by linarith
      have n2 : ¬((11 : ℚ)/10 ≤ q) := by linarith
      have n4 : ¬(q < (9 : ℚ)/10) := by linarith
      simp [h1, h2, n1, n2, n4]
    · rcases lt_or_le q (3/2) with h3 | h3
      · have n4 : ¬(q < (9 : ℚ)/10) := by linarith
        have n5 : ¬(q < (11 : ℚ)/10) := by linarith
        have n1 : ¬((3 : ℚ)/2 ≤ q) := by linarith
        simp [h1, h2, h3, n1, n4, n5]
      · have n4 : ¬(q < (9 : ℚ)/10) := by linarith
        have n5 : ¬(q < (11 : ℚ)/10) := by linarith
        have n6 : ¬(q < (3 : ℚ)/2) := by linarith
        simp [h1, h2, h3, n4, n5, n6]

/-- Four boolean predicates that pick exactly one alternative per element
split the length of a list into the four filter lengths. -/
lemma four_filter_length {α : Type} (p1 p2 p3 p4 : α → Bool) (l : List α)
    (h : ∀ v ∈ l, (p1 v).toNat + (p2 v).toNat + (p3 v).toNat + (p4 v).toNat = 1) :
    (l.filter p1).length + (l.filter p2).length + (l.filter p3).length
      + (l.filter p4).length = l.length := by
  induction l with
  | nil => simp
  | cons a t ih =>
    have ha := h a (List.mem_cons_self a t)
    have ih2 := ih (fun v hv => h v (List.mem_cons_of_mem a hv))
    simp only [List.filter_cons, List.length_cons]
    cases h1 : p1 a <;> cases h2 : p2 a <;> cases h3 : p3 a <;> cases h4 : p4 a <;>
      rw [h1, h2, h3, h4] at ha <;> simp at ha <;> simp [List.length_cons] <;> omega

/-- C10: whenever some fetched video has a positive view count, the channel
average is positive, every recorded velocity score is a finite number lying
in exactly one of the four bands, and the four velocityDistribution counts
sum to the number of videos. -/
theorem velocity_partition (now : ℤ) (raws : List RawVideo)
    (h : ∃ r ∈ raws, 0 < r.viewCount) :
    0 < channelAvgVpd (raws.map (mkBaseVideo now)) ∧
    (∀ v ∈ enrichedOf now raws, ∃ q : ℚ, v.velocityScore = JsNum.num q) ∧
    (∀ v ∈ enrichedOf now raws,
      (v.velocityScore.geQ (3/2)).toNat
        + (v.velocityScore.geQ (11/10) && v.velocityScore.ltQ (3/2)).toNat
        + (v.velocityScore.geQ (9/10) && v.velocityScore.ltQ (11/10)).toNat
        + (v.velocityScore.ltQ (9/10)).toNat = 1) ∧
    (velocityDistOf (enrichedOf now raws)).exploding
      + (velocityDistOf (enrichedOf now raws)).outperforming
      + (velocityDistOf (enrichedOf now raws)).baseline
      + (velocityDistOf (enrichedOf now raws)).underperforming
      = (enrichedOf now raws).length := by
  rcases h with ⟨r, hr, hrpos⟩
  set base := raws.map (mkBaseVideo now) with hbase
  have hmem : mkBaseVideo now r ∈ base := hbase ▸ List.mem_map_of_mem _ hr
  have hnn : ∀ x ∈ base.map (fun v => v.viewsPerDay), 0 ≤ x := by
    intro x hx
    rcases List.mem_map.mp hx with ⟨b, hb2, rfl⟩
    rcases List.mem_map.mp (hbase ▸ hb2) with ⟨r2, _, rfl⟩
    exact viewsPerDay_nonneg now r2
  have hvpd_pos : 0 < (mkBaseVideo now r).viewsPerDay := by
    unfold mkBaseVideo
    exact div_pos (by exact_mod_cast hrpos) (daysSincePublish_cast_pos now r)
  have hsum : 0 < (base.map (fun v => v.viewsPerDay)).sum :=
    sum_pos_of_mem _ hnn _ (List.mem_map_of_mem _ hmem) hvpd_pos
  have hb0 : base ≠ [] := List.ne_nil_of_mem hmem
  have hc : 0 < channelAvgVpd base := by
    unfold channelAvgVpd
    rw [avg_of_ne_nil _ (by simpa using hb0)]
    simp only [Option.getD_some]
    apply div_pos hsum
    have hpos : 0 < base.length := List.length_pos.mpr hb0
    have : 0 < (base.map (fun v => v.viewsPerDay)).length := by simpa using hpos
    exact_mod_cast this
  have hperm : (enrichedOf now raws).Perm (base.map (enrichVideo (channelAvgVpd base))) := by
    unfold enrichedOf sortByVpdDesc
    rw [← hbase]
    exact List.perm_insertionSort _ _
  have hfin : ∀ v ∈ enrichedOf now raws, ∃ q : ℚ, v.velocityScore = JsNum.num q := by
    intro v hv
    rcases List.mem_map.mp (hperm.mem_iff.mp hv) with ⟨b, hb2, rfl⟩
    refine ⟨toFixedQ 3 (b.viewsPerDay / channelAvgVpd base), ?_⟩
    show toFixedJs 3 (jsDivQ b.viewsPerDay (channelAvgVpd base)) = _
    unfold jsDivQ
    rw [if_neg (ne_of_gt hc)]
    rfl
  have hone : ∀ v ∈ enrichedOf now raws,
      (v.velocityScore.geQ (3/2)).toNat
        + (v.velocityScore.geQ (11/10) && v.velocityScore.ltQ (3/2)).toNat
        + (v.velocityScore.geQ (9/10) && v.velocityScore.ltQ (11/10)).toNat
        + (v.velocityScore.ltQ (9/10)).toNat = 1 := by
    intro v hv
    rcases hfin v hv with ⟨q, hq⟩
    rw [hq]
    exact bands_partition q
  refine ⟨hc, hfin, hone, ?_⟩
  simp only [velocityDistOf]
  exact four_filter_length _ _ _ _ _ hone

/-- Witness for C10: one video with 20 views; the four band counts sum to
the number of videos. -/
theorem velocity_partition_witness :
    (velocityDistOf (enrichedOf 864000000 [rawPos])).exploding
      + (velocityDistOf (enrichedOf 864000000 [rawPos])).outperforming
      + (velocityDistOf (enrichedOf 864000000 [rawPos])).baseline
      + (velocityDistOf (enrichedOf 864000000 [rawPos])).underperforming
      = (enrichedOf 864000000 [rawPos]).length :=
  (velocity_partition 864000000 [rawPos] ⟨rawPos, by simp, by norm_num [rawPos]⟩).2.2.2

-- ── C7 ──────────────────────────────────────────────────────────────────────

/-- C7: the format-cluster output has no zero-match cluster, is (stably)
sorted descending by avgViewsPerDay, every output cluster is the cluster
record of one of the fixed patterns, and each cluster averages engagement
over the non-null values only, being null exactly when there are none. -/
theorem format_clusters_sound (videos : List VideoMetric) :
    (∀ c ∈ computeFormatClusters videos, 0 < c.count) ∧
    List.Pairwise (fun a b : FormatCluster => b.avgViewsPerDay ≤ a.avgViewsPerDay)
      (computeFormatClusters videos) ∧
    (∀ c ∈ computeFormatClusters videos, ∃ p ∈ FORMAT_PATTERNS, c = mkCluster videos p) ∧
    (∀ p ∈ FORMAT_PATTERNS,
      (mkCluster videos p).avgEngagementRate
        = (avg (((videos.filter (fun v => p.2 v.title)).map
            (fun v => v.engagementRate)).filterMap id)).map (toFixedQ 4) ∧
      ((mkCluster videos p).avgEngagementRate = none ↔
        ((videos.filter (fun v => p.2 v.title)).map
          (fun v => v.engagementRate)).filterMap id = [])) := by
  have hperm :
      (computeFormatClusters videos).Perm
        ((FORMAT_PATTERNS.map (mkCluster videos)).filter (fun c => 0 < c.count)) := by
    unfold computeFormatClusters
    exact List.perm_insertionSort _ _
  refine ⟨?_, ?_, ?_, ?_⟩
  · intro c hc
    have := List.of_mem_filter (hperm.mem_iff.mp hc)
    simpa using this
  · haveI : IsTotal FormatCluster (fun a b => b.avgViewsPerDay ≤ a.avgViewsPerDay) :=
      ⟨fun a b => le_total b.avgViewsPerDay a.avgViewsPerDay⟩
    haveI : IsTrans FormatCluster (fun a b => b.avgViewsPerDay ≤ a.avgViewsPerDay) :=
      ⟨fun _ _ _ h1 h2 => le_trans h2 h1⟩
    exact List.sorted_insertionSort _ _
  · intro c hc
    have hmem : c ∈ FORMAT_PATTERNS.map (mkCluster videos) :=
      List.mem_of_mem_filter (hperm.mem_iff.mp hc)
    rcases List.mem_map.mp hmem with ⟨p, hp, rfl⟩
    exact ⟨p, hp, rfl⟩
  · intro p _
    refine ⟨rfl, ?_⟩
    show (avg (((videos.filter (fun v => p.2 v.title)).map
        (fun v => v.engagementRate)).filterMap id)).map (toFixedQ 4) = none ↔ _
    rcases hval : ((videos.filter (fun v => p.2 v.title)).map
        (fun v => v.engagementRate)).filterMap id with _ | ⟨a, t⟩
    · rw [hval]
      simp [avg]
    · rw [hval]
      rw [avg_of_ne_nil _ (by simp)]
      simp

/-- Witness for C7: for the empty video set, the question-mark cluster has
null average engagement (no non-null values exist). -/
theorem format_clusters_sound_witness :
    (mkCluster [] ("Question (Has ?)", hasQuestionT)).avgEngagementRate
      = (avg (((([] : List VideoMetric).filter
          (fun v => hasQuestionT v.title)).map
            (fun v => v.engagementRate)).filterMap id)).map (toFixedQ 4) :=
  ((format_clusters_sound []).2.2.2 ("Question (Has ?)", hasQuestionT)
    (by unfold FORMAT_PATTERNS; exact List.mem_cons_self _ _)).1

-- ── C8 ──────────────────────────────────────────────────────────────────────

lemma dayGaps_nonneg (videos : List VideoMetric) :
    ∀ g ∈ dayGapsOf videos, 0 ≤ g := by
  intro g hg
  have := List.of_mem_filter hg
  simpa using this

/-- C8: every retained inter-upload gap is non-negative; with fewer than two
videos the average gap and uploadsPerWeek are both 0; uploadsPerWeek is 0
whenever the average gap is 0 and otherwise is the (rounded) finite JS
division 7 / avgGap — never Infinity or NaN. -/
theorem upload_cadence_guarded (videos : List VideoMetric) :
    (∀ g ∈ dayGapsOf videos, 0 ≤ g) ∧
    (videos.length < 2 →
      avgGapOf videos = 0 ∧
      (computeUploadCadence videos).avgDaysBetweenUploads = 0 ∧
      (computeUploadCadence videos).uploadsPerWeek = 0) ∧
    ((computeUploadCadence videos).uploadsPerWeek
      = if avgGapOf videos = 0 then 0 else toFixedQ 2 (7 / avgGapOf videos)) ∧
    (avgGapOf videos ≠ 0 →
      jsDivQ 7 (avgGapOf videos) = JsNum.num (7 / avgGapOf videos)) := by
  have hnn : ∀ g ∈ dayGapsOf videos, 0 ≤ g := dayGaps_nonneg videos
  have havg_nonneg : 0 ≤ avgGapOf videos := by
    unfold avgGapOf
    rcases hgaps : dayGapsOf videos with _ | ⟨a, t⟩
    · simp [avg]
    · rw [avg_of_ne_nil _ (by simp)]
      simp only [Option.getD_some]
      apply div_nonneg
      · apply List.sum_nonneg
        intro x hx
        exact hnn x (hgaps ▸ hx)
      · positivity
  refine ⟨hnn, ?_, ?_, ?_⟩
  · intro hlt
    have hsorted_len : (sortByTimeAsc videos).length < 2 := by
      unfold sortByTimeAsc
      rwa [(List.perm_insertionSort _ _).length_eq]
    have hzip : ((sortByTimeAsc videos).zip (sortByTimeAsc videos).tail) = [] := by
      rcases hs : sortByTimeAsc videos with _ | ⟨a, _ | ⟨b, t⟩⟩
      · rfl
      · rfl
      · rw [hs] at hsorted_len
        simp only [List.length_cons] at hsorted_len
        omega
    have hgaps : dayGapsOf videos = [] := by
      unfold dayGapsOf
      rw [hzip]
      rfl
    have havg : avgGapOf videos = 0 := by
      unfold avgGapOf
      rw [hgaps]
      rfl
    refine ⟨havg, ?_, ?_⟩
    · show toFixedQ 1 (avgGapOf videos) = 0
      rw [havg]
      with_unfolding_all decide
    · show uploadsPerWeekOf videos = 0
      unfold uploadsPerWeekOf
      rw [if_neg]
      rw [havg]
      norm_num
  · show uploadsPerWeekOf videos = _
    unfold uploadsPerWeekOf
    rcases eq_or_lt_of_le havg_nonneg with h0 | h0
    · rw [if_neg (by rw [← h0]; norm_num), if_pos h0.symm]
    · rw [if_pos h0, if_neg (ne_of_gt h0)]
  · intro h0
    unfold jsDivQ
    rw [if_neg h0]

/-- Witness for C8 on the empty video list (fewer than two videos). -/
theorem upload_cadence_guarded_witness :
    avgGapOf [] = 0 ∧
    (computeUploadCadence []).avgDaysBetweenUploads = 0 ∧
    (computeUploadCadence []).uploadsPerWeek = 0 :=
  (upload_cadence_guarded []).2.1 (by decide)

-- ── C9 ──────────────────────────────────────────────────────────────────────

/-- Counterexample to C9: for the empty fetched video list, report generation
does not fail, and the produced report is NOT all-zero: the upload-cadence
best-day average is the -1 initialisation sentinel (and the quartile
duration/engagement averages are null rather than 0). -/
theorem empty_report_cex :
    (buildReport 0 []).uploadCadence.bestDayAvgVpd = -1 ∧
    (buildReport 0 []).uploadCadence.bestHourAvgVpd = -1 ∧
    (buildReport 0 []).avgDurationTop = none ∧
    ((-1 : ℚ) ≠ 0) := by
  with_unfolding_all decide

/-- C9 as amended: on an empty fetched list the computation is total (no
error path is taken) and produces the specific degenerate report: all title
metrics zero, all velocity counts zero, empty keyword/cluster/video arrays,
null quartile averages, channel average reported as 1 (the `?? 1` default),
zero cadence, and -1 sentinels for the best-slot averages. -/
theorem empty_report_amended (now : ℤ) :
    computeTitleMetrics [] =
      { pctWithNumbers := 0, pctWithQuestion := 0, pctWithComparison := 0,
        pctWithEmotional := 0, avgCharLength := 0, avgWordCount := 0 } ∧
    buildReport now [] =
      { channelAvgVpdOut := 1
        avgDurationTop := none
        avgDurationBottom := none
        avgEngagementTop := none
        avgEngagementBottom := none
        topTitleKeywordsOut := []
        velocityDistribution :=
          { exploding := 0, outperforming := 0, baseline := 0, underperforming := 0 }
        topVideos := []
        bottomVideos := []
        titleTop :=
          { pctWithNumbers := 0, pctWithQuestion := 0, pctWithComparison := 0,
            pctWithEmotional := 0, avgCharLength := 0, avgWordCount := 0 }
        titleBottom :=
          { pctWithNumbers := 0, pctWithQuestion := 0, pctWithComparison := 0,
            pctWithEmotional := 0, avgCharLength := 0, avgWordCount := 0 }
        uploadCadence :=
          { avgDaysBetweenUploads := 0, uploadsPerWeek := 0,
            bestDayOfWeek := "Sunday", bestDayAvgVpd := -1,
            bestHourBucket := "morning", bestHourAvgVpd := -1 }
        formatClusters := [] } := by
  have hb : buildReport now [] = buildReport 0 [] := rfl
  rw [hb]
  with_unfolding_all decide

-- ── C6 ──────────────────────────────────────────────────────────────────────

/-- Append a key at its first occurrence (helper describing the JS object key
insertion order). -/
def insertKey (acc : List String) (w : String) : List String :=
  if w ∈ acc then acc else acc ++ [w]

/-- The distinct elements of a list in first-occurrence order: the key
insertion order of the wordFreq object. -/
def firstOccurs (ws : List String) : List String := ws.foldl insertKey []

/-- The canonical frequency table of a token stream: keys in first-occurrence
order, each paired with its number of occurrences. -/
def freqOf (s : List String) : List (String × ℕ) :=
  (firstOccurs s).map (fun w => (w, s.count w))

/-- All keyword tokens of a title list, in processing order. -/
def allTokens (titles : List String) : List String :=
  titles.flatMap tokenizeKeywords

lemma insertKey_mem (acc : List String) (w x : String) :
    x ∈ insertKey acc w ↔ x ∈ acc ∨ x = w := by
  unfold insertKey
  split_ifs with hw
  · exact ⟨Or.inl, fun h => h.elim id (fun he => he ▸ hw)⟩
  · simp [List.mem_append]

lemma foldl_insertKey_mem (l : List String) : ∀ (acc : List String) (x : String),
    x ∈ l.foldl insertKey acc ↔ x ∈ acc ∨ x ∈ l := by
  induction l with
  | nil => intro acc x; simp
  | cons a t ih =>
    intro acc x
    simp only [List.foldl_cons]
    rw [ih, insertKey_mem]
    simp [List.mem_cons, or_assoc]

lemma insertKey_nodup (acc : List String) (w : String) (h : acc.Nodup) :
    (insertKey acc w).Nodup := by
  unfold insertKey
  split_ifs with hw
  · exact h
  · simp [List.nodup_append, h, hw]

lemma foldl_insertKey_nodup (l : List String) : ∀ acc : List String,
    acc.Nodup → (l.foldl insertKey acc).Nodup := by
  induction l with
  | nil => intro acc h; exact h
  | cons a t ih =>
    intro acc h
    simp only [List.foldl_cons]
    exact ih _ (insertKey_nodup acc a h)

lemma firstOccurs_mem (l : List String) (x : String) :
    x ∈ firstOccurs l ↔ x ∈ l := by
  unfold firstOccurs
  rw [foldl_insertKey_mem]
  simp

lemma firstOccurs_nodup (l : List String) : (firstOccurs l).Nodup :=
  foldl_insertKey_nodup l [] List.nodup_nil

lemma firstOccurs_append_singleton (pre : List String) (w : String) :
    firstOccurs (pre ++ [w]) = insertKey (firstOccurs pre) w := by
  unfold firstOccurs
  rw [List.foldl_append]
  rfl

lemma bump_map_of_mem (keys : List String) (f : String → ℕ) (w : String) :
    keys.Nodup → w ∈ keys →
    bump (keys.map (fun k => (k, f k))) w
      = keys.map (fun k => (k, if k = w then f k + 1 else f k)) := by
  induction keys with
  | nil => intro _ hmem; cases hmem
  | cons a t ih =>
    intro hnd hmem
    simp only [List.map_cons, bump]
    by_cases haw : a = w
    · subst haw
      rw [if_pos rfl]
      simp only [if_pos rfl]
      congr 1
      apply List.map_congr_left
      intro k hk
      have hka : k ≠ a := fun he => (List.nodup_cons.mp hnd).1 (he ▸ hk)
      rw [if_neg hka]
    · rw [if_neg haw]
      have hmem2 : w ∈ t := by
        rcases List.mem_cons.mp hmem with rfl | hmem2
        · exact absurd rfl haw
        · exact hmem2
      rw [ih (List.nodup_cons.mp hnd).2 hmem2]
      simp only [if_neg haw]

lemma bump_map_of_not_mem (keys : List String) (f : String → ℕ) (w : String) :
    w ∉ keys →
    bump (keys.map (fun k => (k, f k))) w
      = keys.map (fun k => (k, f k)) ++ [(w, 1)] := by
  induction keys with
  | nil => intro _; rfl
  | cons a t ih =>
    intro hmem
    simp only [List.map_cons, bump]
    have haw : a ≠ w := fun he => hmem (he ▸ List.mem_cons_self a t)
    rw [if_neg haw]
    rw [ih (fun ht => hmem (List.mem_cons_of_mem a ht))]
    rfl

lemma bump_freqOf (pre : List String) (w : String) :
    bump (freqOf pre) w = freqOf (pre ++ [w]) := by
  unfold freqOf
  rw [firstOccurs_append_singleton]
  by_cases hw : w ∈ firstOccurs pre
  · rw [bump_map_of_mem _ _ _ (firstOccurs_nodup pre) hw]
    unfold insertKey
    rw [if_pos hw]
    apply List.map_congr_left
    intro k _
    by_cases hkw : k = w
    · subst hkw
      rw [if_pos rfl, List.count_append]
      simp [List.count_singleton]
    · rw [if_neg hkw, List.count_append]
      have hwk : w ≠ k := fun he => hkw he.symm
      simp [List.count_singleton, hwk]
  · rw [bump_map_of_not_mem _ _ _ hw]
    unfold insertKey
    rw [if_neg hw]
    rw [List.map_append]
    congr 1
    · apply List.map_congr_left
      intro k hk
      rw [List.count_append]
      have hwk : w ≠ k := fun he => hw (he ▸ hk)
      simp [List.count_singleton, hwk]
    · have hw0 : pre.count w = 0 :=
        List.count_eq_zero.mpr (fun hmem => hw ((firstOccurs_mem pre w).mpr hmem))
      simp [List.count_append, List.count_singleton, hw0]

lemma foldl_bump_freqOf (toks : List String) : ∀ pre : List String,
    toks.foldl bump (freqOf pre) = freqOf (pre ++ toks) := by
  induction toks with
  | nil => intro pre; simp
  | cons w rest ih =>
    intro pre
    simp only [List.foldl_cons]
    rw [bump_freqOf, ih (pre ++ [w]), List.append_assoc, List.singleton_append]

lemma buildFreq_aux (titles : List String) : ∀ pre : List String,
    titles.foldl (fun m t => (tokenizeKeywords t).foldl bump m) (freqOf pre)
      = freqOf (pre ++ allTokens titles) := by
  induction titles with
  | nil => intro pre; simp [allTokens]
  | cons t ts ih =>
    intro pre
    simp only [List.foldl_cons]
    rw [foldl_bump_freqOf, ih (pre ++ tokenizeKeywords t), List.append_assoc]
    congr 2

/-- The wordFreq object is the canonical frequency table of the token
stream: keys in first-occurrence order, values the total counts. -/
lemma buildFreq_eq (titles : List String) :
    buildFreq titles = freqOf (allTokens titles) := by
  unfold buildFreq
  have h0 : freqOf [] = ([] : List (String × ℕ)) := rfl
  rw [← h0]
  rw [buildFreq_aux titles []]
  simp

lemma tokenize_props (t w : String) (hw : w ∈ tokenizeKeywords t) :
    1 < w.length ∧ STOPWORDS.contains w = false := by
  unfold tokenizeKeywords at hw
  have hp := List.of_mem_filter hw
  simp only [Bool.and_eq_true, decide_eq_true_eq, Bool.not_eq_true'] at hp
  exact hp

/-- Counterexample to C6 as stated: on the titles ["e-mail 10 kite", "kite"]
the claimed extractor (whitespace replacement, first-insertion tie order)
yields [kite, mail, 10] while the code (deletion, array-index keys first)
yields [kite, 10, email]. -/
theorem keyword_extractor_cex :
    topTitleKeywordsClaimed ["e-mail 10 kite", "kite"]
      = [("kite", 2), ("mail", 1), ("10", 1)] ∧
    topTitleKeywords ["e-mail 10 kite", "kite"]
      = [("kite", 2), ("10", 1), ("email", 1)] ∧
    topTitleKeywordsClaimed ["e-mail 10 kite", "kite"]
      ≠ topTitleKeywords ["e-mail 10 kite", "kite"] := by
  with_unfolding_all decide

/-- C6 as amended: the extractor lower-cases, DELETES non-alphanumerics,
splits on whitespace, filters short/stopword tokens, counts frequencies over
all titles, and returns at most 10 entries sorted descending by frequency,
ties broken by the JS object enumeration order (canonical array-index tokens
ascending first, then first-insertion order). -/
theorem keyword_extractor_amended (titles : List String) :
    (topTitleKeywords titles).length ≤ 10 ∧
    List.Pairwise (fun a b : String × ℕ => b.2 ≤ a.2) (topTitleKeywords titles) ∧
    (∀ p ∈ topTitleKeywords titles,
      p.2 = (allTokens titles).count p.1 ∧ 0 < p.2 ∧ 1 < p.1.length ∧
      STOPWORDS.contains p.1 = false) ∧
    buildFreq titles = freqOf (allTokens titles) ∧
    topTitleKeywords titles
      = (sortEntriesByCountDesc (jsEntries (freqOf (allTokens titles)))).take 10 := by
  have hbf := buildFreq_eq titles
  have hsorted : List.Pairwise (fun a b : String × ℕ => b.2 ≤ a.2)
      (sortEntriesByCountDesc (jsEntries (buildFreq titles))) := by
    unfold sortEntriesByCountDesc
    haveI : IsTotal (String × ℕ) (fun a b => b.2 ≤ a.2) := ⟨fun a b => le_total b.2 a.2⟩
    haveI : IsTrans (String × ℕ) (fun a b => b.2 ≤ a.2) :=
      ⟨fun _ _ _ h1 h2 => le_trans h2 h1⟩
    exact List.sorted_insertionSort _ _
  refine ⟨List.length_take_le _ _, ?_, ?_, hbf, ?_⟩
  · exact List.Pairwise.sublist (List.take_sublist _ _) hsorted
  · intro p hp
    have hp2 : p ∈ sortEntriesByCountDesc (jsEntries (buildFreq titles)) :=
      List.mem_of_mem_take hp
    have hp3 : p ∈ jsEntries (buildFreq titles) := by
      unfold sortEntriesByCountDesc at hp2
      exact (List.perm_insertionSort _ _).mem_iff.mp hp2
    have hp4 : p ∈ buildFreq titles := by
      unfold jsEntries at hp3
      rcases List.mem_append.mp hp3 with h | h
      · exact List.mem_of_mem_filter ((List.perm_insertionSort _ _).mem_iff.mp h)
      · exact List.mem_of_mem_filter h
    rw [hbf] at hp4
    unfold freqOf at hp4
    rcases List.mem_map.mp hp4 with ⟨w, hw, rfl⟩
    have hwtok : w ∈ allTokens titles := (firstOccurs_mem _ _).mp hw
    have hcount : 0 < (allTokens titles).count w := by
      rcases Nat.eq_zero_or_pos ((allTokens titles).count w) with h0 | h0
      · exact absurd hwtok (List.count_eq_zero.mp h0)
      · exact h0
    rcases List.mem_flatMap.mp hwtok with ⟨t, _, hwt⟩
    have hprops := tokenize_props t w hwt
    exact ⟨rfl, hcount, hprops.1, hprops.2⟩
  · show (sortEntriesByCountDesc (jsEntries (buildFreq titles))).take 10 = _
    rw [hbf]

/-- Witness for the amended C6: the top entry ("kite", 2) of the concrete run
carries the exact token count and passed the token filters. -/
theorem keyword_extractor_amended_witness :
    ("kite", 2).2 = (allTokens ["e-mail 10 kite", "kite"]).count ("kite", 2).1 ∧
    0 < ("kite", 2).2 ∧ 1 < ("kite", 2).1.length ∧
    STOPWORDS.contains ("kite", 2).1 = false :=
  (keyword_extractor_amended ["e-mail 10 kite", "kite"]).2.2.1 ("kite", 2)
    (by with_unfolding_all decide)
